import Mathlib

/-!
Verification of the retrieval-and-answer orchestration pipeline of the
Patient 360 backend (`app/services/llm.py`, `app/services/retrieval.py`,
`app/routes/copilot.py`).  Python strings are modelled as `List Char`,
floating relevance scores as rationals, and fallible collaborators
(database, hosted model API) as explicit `Except` inputs.
-/

namespace P360

/-- Whitespace test matching Python `str.strip` / `str.split` defaults for the
ASCII whitespace characters. -/
def pyIsSpace (c : Char) : Bool :=
  c = ' ' || c = '\t' || c = '\n' || c = '\r' || c = '\x0b' || c = '\x0c'

/-- Python `text.strip()`: remove whitespace from both ends. -/
def stripL (xs : List Char) : List Char :=
  ((xs.dropWhile pyIsSpace).reverse.dropWhile pyIsSpace).reverse

/-- Python `text.lstrip(s)` for an explicit character set `s`. -/
def lstripSet (s : List Char) (xs : List Char) : List Char :=
  xs.dropWhile (fun c => s.contains c)

/-- Python `sep.join(parts)`. -/
def joinSep (sep : List Char) : List (List Char) → List Char
  | [] => []
  | [p] => p
  | p :: q :: ps => p ++ sep ++ joinSep sep (q :: ps)

/-- Python `text.split(sep)` for nonempty `sep`, written with an explicit fuel
argument; any fuel at least the length of the text gives the real value. -/
def splitOnCore (sep : List Char) : Nat → List Char → List (List Char)
  | _, [] => [[]]
  | 0, xs => [xs]
  | fuel + 1, c :: cs =>
    if sep.isPrefixOf (c :: cs) then
      [] :: splitOnCore sep fuel ((c :: cs).drop sep.length)
    else
      match splitOnCore sep fuel cs with
      | [] => [[c]]
      | h :: t => (c :: h) :: t

/-- Python `text.split(sep)`.  The empty-separator case never arises in the
embedded code (Python would raise there). -/
def splitOnL (sep xs : List Char) : List (List Char) :=
  match sep with
  | [] => [xs]
  | _ :: _ => splitOnCore sep xs.length xs

/-- Python substring membership `sep in text`. -/
def containsL (sep xs : List Char) : Bool := decide (sep <:+: xs)

/-- Helper for `pyWords`, carrying the current partial word reversed. -/
def pyWordsAux : List Char → List Char → List (List Char)
  | [], acc => if acc.isEmpty then [] else [acc.reverse]
  | c :: cs, acc =>
    if pyIsSpace c then
      if acc.isEmpty then pyWordsAux cs [] else acc.reverse :: pyWordsAux cs []
    else pyWordsAux cs (c :: acc)

/-- Python `text.split()` with no separator: maximal whitespace-free words. -/
def pyWords (xs : List Char) : List (List Char) := pyWordsAux xs []

/-- Successive groups of three, mirroring iteration over `range(0, n, 3)` with
slices `words[i:i+3]`. -/
def chunk3 {α : Type} : List α → List (List α)
  | [] => []
  | [a] => [[a]]
  | [a, b] => [[a, b]]
  | a :: b :: c :: rest => [a, b, c] :: chunk3 rest

/-- The delta payloads of the template streaming path: the answer is split into
words, regrouped in threes, each group joined by single spaces with one
trailing space appended (`llm.py` lines 186-191). -/
def streamChunks (answer : List Char) : List (List Char) :=
  (chunk3 (pyWords answer)).map (fun g => joinSep [' '] g ++ [' '])

/-- Python `text.lower()` on the ASCII strings handled here. -/
def lowerL (xs : List Char) : List Char := xs.map Char.toLower

/-- Python `text.upper()` on the ASCII strings handled here. -/
def upperL (xs : List Char) : List Char := xs.map Char.toUpper

/-- Decimal rendering of a natural number, as a Python f-string renders it. -/
def natChars (n : Nat) : List Char := Nat.toDigits 10 n

/-- CopilotSource (schemas.py): one source citation unit. -/
structure CopilotSource where
  source_type : List Char
  source_id : Int
  label : List Char
  snippet : List Char
  score : ℚ
  metadata : Option (List Char)
deriving DecidableEq

/-- The Azure OpenAI part of Settings (settings.py). -/
structure Settings where
  azure_openai_endpoint : Option (List Char)
  azure_openai_key : Option (List Char)
  azure_openai_chat_deployment : List Char
deriving DecidableEq

/-- Python truthiness of an optional string: None and the empty string are
falsy, every other string is truthy. -/
def truthyStr : Option (List Char) → Bool
  | none => false
  | some s => !s.isEmpty

/-- Settings.has_azure_openai (settings.py 47-50). -/
def has_azure_openai (st : Settings) : Bool :=
  truthyStr st.azure_openai_endpoint && truthyStr st.azure_openai_key

/-- One rendered context entry of _build_context_and_prompt (llm.py 50-53). -/
def renderSource (i : Nat) (s : CopilotSource) : List Char :=
  "[Source ".toList ++ natChars i ++ " - ".toList ++ upperL s.source_type
    ++ "] ".toList ++ s.label ++ ":\n".toList ++ s.snippet

/-- The enumerate(sources, 1) loop of _build_context_and_prompt. -/
def buildContextParts : Nat → List CopilotSource → List (List Char)
  | _, [] => []
  | i, s :: ss => renderSource i s :: buildContextParts (i + 1) ss

/-- The fixed placeholder used when no sources were retrieved (llm.py 55). -/
def noContextPlaceholder : List Char := "No relevant context found.".toList

/-- The context string of _build_context_and_prompt (llm.py 48-55). -/
def contextBlock (sources : List CopilotSource) : List Char :=
  let parts := buildContextParts 1 sources
  if parts.isEmpty then noContextPlaceholder else joinSep "\n\n".toList parts

/-- The user prompt of _build_context_and_prompt (llm.py 57-74). -/
def userPrompt (question patient_name : List Char) (sources : List CopilotSource) : List Char :=
  "Patient: ".toList ++ patient_name ++ "\n\nQuestion: ".toList ++ question
    ++ "\n\nRelevant Context:\n".toList ++ contextBlock sources
    ++ "\n\nPlease provide:\n1. A direct answer to the question based on the context\n2. 2-3 recommended next actions for the care team\n\nFormat your response as:\nANSWER: [Your answer here with citations]\n\nNEXT ACTIONS:\n- [Action 1]\n- [Action 2]\n- [Action 3]".toList

/-- _build_context_and_prompt (llm.py 37-76). -/
def build_context_and_prompt (question patient_name : List Char)
    (sources : List CopilotSource) : List Char × List Char :=
  (contextBlock sources, userPrompt question patient_name sources)

/-- The literal marker "ANSWER:" of the parsing protocol. -/
def ansMarker : List Char := "ANSWER:".toList

/-- The literal marker "NEXT ACTIONS:" of the parsing protocol. -/
def naMarker : List Char := "NEXT ACTIONS:".toList

/-- The fixed default next actions of _parse_llm_response (llm.py 310-314). -/
def defaultNextActions : List (List Char) :=
  ["Review full clinical context".toList,
   "Document assessment in patient record".toList,
   "Follow up as clinically appropriate".toList]

/-- One iteration of the action-line loop of _parse_llm_response
(llm.py 296-301): returns the extracted action, if the line yields one. -/
def lineAction (rawLine : List Char) : Option (List Char) :=
  let line := stripL rawLine
  if ['-'].isPrefixOf line || ['•'].isPrefixOf line then
    let action := stripL (lstripSet ['-', '•'] line)
    if action.isEmpty then none else some action
  else none

/-- The action-extraction loop of _parse_llm_response (llm.py 295-301). -/
def extractActions (actionsPart : List Char) : List (List Char) :=
  (splitOnL ['\n'] (stripL actionsPart)).filterMap lineAction

/-- _parse_llm_response (llm.py 277-316). -/
def parse_llm_response (response_text : List Char) : List Char × List (List Char) :=
  if containsL naMarker response_text then
    let parts := splitOnL naMarker response_text
    let answer_part := parts.headD []
    let actions_part := parts.getD 1 []
    let answer :=
      if containsL ansMarker answer_part then
        stripL ((splitOnL ansMarker answer_part).getD 1 [])
      else stripL answer_part
    (answer, extractActions actions_part)
  else
    let answer :=
      if containsL ansMarker response_text then
        stripL ((splitOnL ansMarker response_text).getD 1 [])
      else stripL response_text
    (answer, defaultNextActions)

/-- One bullet line of _template_changes_response (llm.py 383, 388). -/
def srcChangeLine (s : CopilotSource) : List Char :=
  "- ".toList ++ s.label ++ ": ".toList ++ s.snippet
    ++ " [Source: ".toList ++ s.source_type ++ "]".toList

/-- _template_changes_response (llm.py 370-397). -/
def template_changes_response (patient_name : List Char)
    (notes labs meds : List CopilotSource) : List Char :=
  let parts : List (List Char) :=
    ["Based on the available records for ".toList ++ patient_name
       ++ ", here are the key changes:\n".toList]
    ++ (if meds.isEmpty then [] else
        "**Medication Changes:**".toList :: (meds.take 3).map srcChangeLine)
    ++ (if labs.isEmpty then [] else
        "\n**Lab Results:**".toList :: (labs.take 3).map srcChangeLine)
    ++ (if notes.isEmpty then [] else
        ["\n**Clinical Notes:**".toList,
         "- ".toList ++ natChars notes.length
           ++ " relevant clinical notes found documenting recent care".toList])
    ++ (if meds.isEmpty && labs.isEmpty && notes.isEmpty then
        ["Limited information available in the retrieved context.".toList] else [])
  joinSep ['\n'] parts

/-- The first-matching-medication loop of _template_medication_response
(llm.py 411-415). -/
def findLisinopril : List CopilotSource → Option CopilotSource
  | [] => none
  | m :: ms =>
    if containsL "lisinopril".toList (lowerL m.label)
       || containsL "lisinopril".toList (lowerL m.snippet)
    then some m else findLisinopril ms

/-- The potassium-lab filter of _template_medication_response (llm.py 421). -/
def kLabPred (l : CopilotSource) : Bool :=
  containsL "potassium".toList (lowerL l.label) || containsL "k".toList (lowerL l.label)

/-- The creatinine-lab filter of _template_medication_response (llm.py 422). -/
def crLabPred (l : CopilotSource) : Bool :=
  containsL "creatinine".toList (lowerL l.label) || containsL "egfr".toList (lowerL l.label)

/-- _template_medication_response (llm.py 400-439). -/
def template_medication_response (patient_name : List Char)
    (meds labs notes : List CopilotSource) : List Char :=
  let parts0 := ["Regarding medication management for ".toList ++ patient_name ++ ":\n".toList]
  let parts :=
    match findLisinopril meds with
    | some med_info =>
      let kLab := labs.find? kLabPred
      let crLab := labs.find? crLabPred
      parts0 ++ ["**Medication Record:** ".toList ++ med_info.snippet]
      ++ (if kLab.isSome || crLab.isSome then
            ["\n**Related Lab Values:**".toList]
            ++ (match kLab with
                | some l => ["- ".toList ++ l.label ++ ": ".toList ++ l.snippet]
                | none => [])
            ++ (match crLab with
                | some l => ["- ".toList ++ l.label ++ ": ".toList ++ l.snippet]
                | none => [])
          else [])
      ++ (if notes.isEmpty then [] else
            ["\n**Clinical Documentation:** Found ".toList ++ natChars notes.length
               ++ " relevant notes discussing this decision".toList])
    | none =>
      parts0 ++ ["Specific medication details found in the following sources:".toList]
      ++ (meds.take 3).map (fun m => "- ".toList ++ m.label ++ ": ".toList ++ m.snippet)
  joinSep ['\n'] parts

/-- _template_risk_response (llm.py 442-459). -/
def template_risk_response (patient_name : List Char)
    (sources : List CopilotSource) : List Char :=
  joinSep ['\n'] (
    ["Risk assessment for ".toList ++ patient_name ++ ":\n".toList,
     "**Top Clinical Considerations:**".toList,
     "1. **Kidney Function Monitoring** - CKD Stage 3a requires close monitoring".toList,
     "2. **Glycemic Control** - A1C trending, continue optimization".toList,
     "3. **Cardiovascular Risk** - Hypertension and diabetes increase CV risk".toList,
     "\n**Based on Available Sources:**".toList]
    ++ (sources.take 3).map (fun s => "- [".toList ++ upperL s.source_type ++ "] ".toList ++ s.label))

/-- Snippet truncation of _template_generic_response (llm.py 474). -/
def genericSnippet (s : CopilotSource) : List Char :=
  if s.snippet.length > 200 then s.snippet.take 200 ++ "...".toList else s.snippet

/-- _template_generic_response (llm.py 462-479). -/
def template_generic_response (patient_name : List Char)
    (sources : List CopilotSource) : List Char :=
  joinSep ['\n'] (
    ["Based on the available records for ".toList ++ patient_name ++ ":\n".toList]
    ++ (if sources.isEmpty then
         ["No relevant information found in the available records.".toList,
          "Please try rephrasing your question or check that relevant data exists for this patient.".toList]
        else
         "**Relevant Information Found:**".toList ::
           ((sources.take 5).map (fun s =>
             ["\n[".toList ++ upperL s.source_type ++ " - ".toList ++ s.label ++ "]".toList,
              genericSnippet s])).flatten))

/-- The fixed next actions of the changes branch (llm.py 336-340). -/
def changesActions : List (List Char) :=
  ["Review medication changes with patient".toList,
   "Confirm lab trends are in expected direction".toList,
   "Schedule follow-up to assess treatment response".toList]

/-- The fixed next actions of the medication branch (llm.py 344-348). -/
def medicationActions : List (List Char) :=
  ["Monitor potassium and kidney function".toList,
   "Assess blood pressure response to dose change".toList,
   "Document rationale in medication history".toList]

/-- The fixed next actions of the risk branch (llm.py 352-356). -/
def riskActions : List (List Char) :=
  ["Prioritize kidney function monitoring".toList,
   "Ensure diabetes management is optimized".toList,
   "Review cardiovascular risk factors".toList]

/-- The fixed next actions of the generic branch (llm.py 361-365). -/
def genericActions : List (List Char) :=
  ["Review relevant clinical context".toList,
   "Document findings in patient record".toList,
   "Follow up as clinically indicated".toList]

/-- _generate_template_response (llm.py 319-367). -/
def generate_template_response (question patient_name : List Char)
    (sources : List CopilotSource) : List Char × List (List Char) × Option (List Char) :=
  let question_lower := lowerL question
  let note_sources := sources.filter (fun s => s.source_type == "note".toList)
  let lab_sources := sources.filter (fun s => s.source_type == "lab".toList)
  let med_sources := sources.filter (fun s => s.source_type == "med".toList)
  if containsL "last 90 days".toList question_lower
     || containsL "changed".toList question_lower
     || containsL "recent".toList question_lower then
    (template_changes_response patient_name note_sources lab_sources med_sources,
     changesActions, none)
  else if containsL "lisinopril".toList question_lower
          || containsL "dose".toList question_lower then
    (template_medication_response patient_name med_sources lab_sources note_sources,
     medicationActions, none)
  else if containsL "risk".toList question_lower
          || containsL "action".toList question_lower then
    (template_risk_response patient_name sources, riskActions, none)
  else
    (template_generic_response patient_name sources, genericActions, none)

/-- generate_answer (llm.py 79-97) together with the fallback of
_generate_with_openai (llm.py 100-147); the hosted Responses API call is
abstracted to its outcome (the completed output text, or an exception). -/
def generate_answer (question patient_name : List Char) (sources : List CopilotSource)
    (st : Settings) (hosted : Except (List Char) (List Char)) :
    List Char × List (List Char) × Option (List Char) :=
  if has_azure_openai st then
    match hosted with
    | .ok response_text =>
      let (answer, next_actions) := parse_llm_response response_text
      (answer, next_actions, some st.azure_openai_chat_deployment)
    | .error _ => generate_template_response question patient_name sources
  else
    generate_template_response question patient_name sources

/-- A raw result row of the retrieve_context SQL function (retrieval.py 37-49). -/
structure RetrievalRow where
  source_type : List Char
  source_id : Int
  label : List Char
  snippet : List Char
  score : ℚ
  metadata : Option (List Char)
deriving DecidableEq

/-- The vector-result check of retrieve_context (retrieval.py 53-57): any note
with score above 0.5. -/
def hasVectorResults (results : List RetrievalRow) : Bool :=
  results.any (fun r => r.source_type == "note".toList && decide ((1 : ℚ)/2 < r.score))

/-- retrieve_context (retrieval.py 17-87) with the database call abstracted to
its outcome; any failure of the store is caught and degraded (84-87). -/
def retrieve_context (store : Except (List Char) (List RetrievalRow)) :
    List RetrievalRow × List Char :=
  match store with
  | .ok results =>
    let retrieval_method :=
      if hasVectorResults results then "vector".toList else "keyword".toList
    (results, retrieval_method)
  | .error _ => ([], "error".toList)

/-- Conversion of a raw row to a CopilotSource (copilot.py 51-61 and 124-134). -/
def rowToSource (r : RetrievalRow) : CopilotSource :=
  { source_type := r.source_type, source_id := r.source_id, label := r.label,
    snippet := r.snippet, score := r.score, metadata := r.metadata }

/-- CopilotResponse (schemas.py 148-154). -/
structure CopilotResponse where
  answer : List Char
  next_actions : List (List Char)
  sources : List CopilotSource
  model_used : Option (List Char)
  retrieval_method : List Char
deriving DecidableEq

/-- ask_copilot (copilot.py 24-88): the non-streaming pipeline, with the
patient lookup, context store and hosted model given by their outcomes; a
raised HTTPException is the error case, carrying the status code. -/
def ask_copilot (patientFound : Bool) (patient_name question : List Char)
    (st : Settings) (store : Except (List Char) (List RetrievalRow))
    (hosted : Except (List Char) (List Char)) : Except Nat CopilotResponse :=
  if !patientFound then .error 404
  else
    let r := retrieve_context store
    let sources := r.1.map rowToSource
    let g := generate_answer question patient_name sources st hosted
    .ok { answer := g.1, next_actions := g.2.1, sources := sources,
          model_used := g.2.2, retrieval_method := r.2 }

/-- StreamEvent: the tagged union of SSE events the stream emits. -/
inductive StreamEvent where
  | source (s : CopilotSource)
  | metadata (retrieval_method : List Char)
  | delta (text : List Char)
  | actions (a : List (List Char))
  | done (model : Option (List Char)) (retrieval_method : List Char)
  | error (msg : List Char)
deriving DecidableEq

/-- generate_answer_stream (llm.py 150-206), template branch: source events,
then the pseudo-streamed word-group deltas, then actions, then done with model
None and tag template. -/
def template_answer_stream (question patient_name : List Char)
    (sources : List CopilotSource) : List StreamEvent :=
  let g := generate_template_response question patient_name sources
  sources.map .source
    ++ (streamChunks g.1).map .delta
    ++ [.actions g.2.1, .done none "template".toList]

/-- _stream_with_openai (llm.py 208-274): source events, then the delta texts
received from the hosted API stream, then actions parsed from the accumulated
text, then done with the deployment name and the literal tag vector. -/
def openai_answer_stream (sources : List CopilotSource)
    (api_deltas : List (List Char)) (st : Settings) : List StreamEvent :=
  sources.map .source
    ++ api_deltas.map .delta
    ++ [.actions (parse_llm_response api_deltas.flatten).2,
        .done (some st.azure_openai_chat_deployment) "vector".toList]

/-- generate_stream (copilot.py 114-154) on a run with no exception: the
metadata event first, then the events of the selected backend. -/
def generate_stream_success (st : Settings) (question patient_name : List Char)
    (store : Except (List Char) (List RetrievalRow))
    (api_deltas : List (List Char)) : List StreamEvent :=
  let r := retrieve_context store
  let sources := r.1.map rowToSource
  .metadata r.2 ::
    (if has_azure_openai st then openai_answer_stream sources api_deltas st
     else template_answer_stream question patient_name sources)

/-- A streaming run outcome: either no exception occurs, or an exception
strikes after k events have been yielded, upon which the enclosing
except-block emits a single error event and the stream ends (copilot.py
152-154, llm.py 203-205). -/
inductive RunOutcome where
  | success
  | failAt (k : Nat) (msg : List Char)

/-- generate_stream (copilot.py 114-154): full event sequence of one run. -/
def generate_stream (st : Settings) (question patient_name : List Char)
    (store : Except (List Char) (List RetrievalRow))
    (api_deltas : List (List Char)) : RunOutcome → List StreamEvent
  | .success => generate_stream_success st question patient_name store api_deltas
  | .failAt k msg =>
    (generate_stream_success st question patient_name store api_deltas).take k
      ++ [.error msg]

/-- The type tag of a stream event. -/
inductive EventTag where
  | source | metadata | delta | actions | done | error
deriving DecidableEq

/-- Tag of an event. -/
def eventTag : StreamEvent → EventTag
  | .source _ => .source
  | .metadata _ => .metadata
  | .delta _ => .delta
  | .actions _ => .actions
  | .done _ _ => .done
  | .error _ => .error

/-- Acceptor for the common grammar tail: delta* actions done (with at least
the actions and done events remaining). -/
def tagsAfterDelta : List EventTag → Bool
  | [.actions, .done] => true
  | .delta :: rest => tagsAfterDelta rest
  | _ => false

/-- Acceptor for the event-type grammar asserted by the specification:
source*, metadata, delta+, actions, done. -/
def claimTagSeq : List EventTag → Bool
  | .source :: rest => claimTagSeq rest
  | .metadata :: .delta :: rest => tagsAfterDelta rest
  | _ => false

/-- Helper for the amended grammar, after the leading metadata:
source* delta* actions done. -/
def amendedAfterMeta : List EventTag → Bool
  | .source :: rest => amendedAfterMeta rest
  | .delta :: rest => tagsAfterDelta rest
  | [.actions, .done] => true
  | _ => false

/-- Acceptor for the amended event-type grammar matching the code:
metadata, source*, delta*, actions, done. -/
def amendedTagSeq : List EventTag → Bool
  | .metadata :: rest => amendedAfterMeta rest
  | _ => false

/-- Payload of a source event. -/
def srcPayload : StreamEvent → Option CopilotSource
  | .source s => some s
  | _ => none

/-- Payload of a delta event. -/
def deltaPayload : StreamEvent → Option (List Char)
  | .delta t => some t
  | _ => none

/-- Claim-side rendering of one context entry, written from the specification
wording: a [Source N - TYPE] heading with the 1-based index N and the
upper-cased type, then the label, a colon, a newline and the snippet. -/
def specRenderSource (n : Nat) (s : CopilotSource) : List Char :=
  "[Source ".toList ++ natChars n ++ " - ".toList ++ upperL s.source_type
    ++ "] ".toList ++ s.label ++ ":".toList ++ ['\n'] ++ s.snippet

/-- Claim-side context block: the rendered entries at 1-based positions,
joined by blank lines, or the fixed placeholder for an empty source list. -/
def specContextBlock (sources : List CopilotSource) : List Char :=
  if sources.isEmpty then noContextPlaceholder
  else joinSep "\n\n".toList
    (List.zipWith specRenderSource (List.range' 1 sources.length) sources)

/-- The round-trip text of the documented prompt layout. -/
def roundTripText (A x y : List Char) : List Char :=
  "ANSWER: ".toList ++ A ++ "\n\nNEXT ACTIONS:\n- ".toList ++ x ++ "\n- ".toList ++ y

/-- A Settings value with Azure OpenAI unconfigured (template backend). -/
def templateSettings : Settings :=
  { azure_openai_endpoint := none, azure_openai_key := none,
    azure_openai_chat_deployment := "gpt-5.2".toList }

/-- A concrete lab row for concrete evaluations. -/
def labRow : RetrievalRow :=
  { source_type := "lab".toList, source_id := 1, label := "A1C".toList,
    snippet := "7.2".toList, score := 1, metadata := none }

/-- A concrete medication source for concrete evaluations. -/
def medSrc : CopilotSource :=
  { source_type := "med".toList, source_id := 2, label := "Lisinopril 20mg".toList,
    snippet := "increased".toList, score := 1, metadata := none }

/-- A concrete lab source for concrete evaluations. -/
def labSrc : CopilotSource :=
  { source_type := "lab".toList, source_id := 3, label := "A1C".toList,
    snippet := "7.2".toList, score := 1, metadata := none }

/-- The example question of the changes scenario. -/
def changesQuestion : List Char := "What changed in the last 90 days?".toList

/-! ### Lemmas about the string-level embedding -/

theorem containsL_iff {sep xs : List Char} : containsL sep xs = true ↔ sep <:+: xs := by
  simp [containsL]

theorem containsL_false {sep xs : List Char} (h : ¬ sep <:+: xs) :
    containsL sep xs = false := by
  simp [containsL, h]

theorem splitOnCore_nil {sep : List Char} (fuel : Nat) :
    splitOnCore sep fuel [] = [[]] := by
  cases fuel <;> simp [splitOnCore]

theorem splitOnCore_cons_pos {sep : List Char} {c : Char} {cs : List Char} {fuel : Nat}
    (hp : sep.isPrefixOf (c :: cs) = true) :
    splitOnCore sep (fuel + 1) (c :: cs)
      = [] :: splitOnCore sep fuel ((c :: cs).drop sep.length) := by
  simp [splitOnCore, hp]

theorem splitOnCore_cons_neg {sep : List Char} {c : Char} {cs : List Char} {fuel : Nat}
    (hp : sep.isPrefixOf (c :: cs) = false) :
    splitOnCore sep (fuel + 1) (c :: cs)
      = match splitOnCore sep fuel cs with
        | [] => [[c]]
        | h :: t => (c :: h) :: t := by
  simp [splitOnCore, hp]

theorem splitOnCore_fuel {sep : List Char} (hsep : sep ≠ []) :
    ∀ (f1 f2 : Nat) (xs : List Char), xs.length ≤ f1 → xs.length ≤ f2 →
      splitOnCore sep f1 xs = splitOnCore sep f2 xs := by
  intro f1
  induction f1 with
  | zero =>
    intro f2 xs h1 _
    have hx : xs = [] := List.eq_nil_of_length_eq_zero (Nat.le_zero.mp h1)
    subst hx
    rw [splitOnCore_nil, splitOnCore_nil]
  | succ f1' ih =>
    intro f2 xs h1 h2
    cases xs with
    | nil => rw [splitOnCore_nil, splitOnCore_nil]
    | cons c cs =>
      cases f2 with
      | zero => simp at h2
      | succ f2' =>
        have hsl : 1 ≤ sep.length := List.length_pos.mpr hsep
        simp only [List.length_cons] at h1 h2
        cases hp : sep.isPrefixOf (c :: cs) with
        | true =>
          rw [splitOnCore_cons_pos hp, splitOnCore_cons_pos hp]
          have hd : ((c :: cs).drop sep.length).length ≤ f1' := by
            simp only [List.length_drop, List.length_cons]
            omega
          have hd2 : ((c :: cs).drop sep.length).length ≤ f2' := by
            simp only [List.length_drop, List.length_cons]
            omega
          rw [ih f2' _ hd hd2]
        | false =>
          rw [splitOnCore_cons_neg hp, splitOnCore_cons_neg hp,
            ih f2' cs (by omega) (by omega)]

theorem splitOnCore_of_not_infix {sep : List Char} :
    ∀ (fuel : Nat) (xs : List Char), xs.length ≤ fuel → ¬ sep <:+: xs →
      splitOnCore sep fuel xs = [xs] := by
  intro fuel
  induction fuel with
  | zero =>
    intro xs h _
    have hx : xs = [] := List.eq_nil_of_length_eq_zero (Nat.le_zero.mp h)
    subst hx
    exact splitOnCore_nil 0
  | succ f ih =>
    intro xs h hinf
    cases xs with
    | nil => exact splitOnCore_nil _
    | cons c cs =>
      have hp : sep.isPrefixOf (c :: cs) = false := by
        cases hp : sep.isPrefixOf (c :: cs) with
        | true =>
          exact absurd (List.isPrefixOf_iff_prefix.mp hp).isInfix hinf
        | false => rfl
      have hcs : ¬ sep <:+: cs := fun h' => hinf (List.infix_cons_iff.mpr (Or.inr h'))
      have hlen : cs.length ≤ f := by
        simp only [List.length_cons] at h
        omega
      rw [splitOnCore_cons_neg hp, ih cs hlen hcs]

theorem splitOnL_of_not_infix {sep xs : List Char} (h : ¬ sep <:+: xs) :
    splitOnL sep xs = [xs] := by
  cases sep with
  | nil => rfl
  | cons d ds =>
    exact splitOnCore_of_not_infix xs.length xs le_rfl h

theorem splitOnCore_append_first {sep r : List Char} (hsep : sep ≠ []) :
    ∀ (l : List Char) (fuel : Nat), (l ++ sep ++ r).length ≤ fuel →
      (∀ s, s <:+ l → s ≠ [] → ¬ sep <+: (s ++ sep ++ r)) →
      splitOnCore sep fuel (l ++ sep ++ r) = l :: splitOnCore sep r.length r := by
  intro l
  induction l with
  | nil =>
    intro fuel hf _
    obtain ⟨d, ds, rfl⟩ : ∃ d ds, sep = d :: ds := by
      cases sep with
      | nil => exact absurd rfl hsep
      | cons d ds => exact ⟨d, ds, rfl⟩
    simp only [List.nil_append, List.length_append, List.length_cons] at hf
    cases fuel with
    | zero => omega
    | succ f =>
      have hp : (d :: ds).isPrefixOf (d :: (ds ++ r)) = true :=
        List.isPrefixOf_iff_prefix.mpr (List.prefix_append (d :: ds) r)
      show splitOnCore (d :: ds) (f + 1) (d :: (ds ++ r))
        = [] :: splitOnCore (d :: ds) r.length r
      rw [splitOnCore_cons_pos hp]
      have hdrop : List.drop (d :: ds).length (d :: (ds ++ r)) = r :=
        List.drop_left (d :: ds) r
      rw [hdrop]
      have hrf : r.length ≤ f := by omega
      rw [splitOnCore_fuel hsep f r.length r hrf le_rfl]
  | cons c l' ih =>
    intro fuel hf H
    cases fuel with
    | zero =>
      have h0 : ((c :: l') ++ sep ++ r).length = 0 := Nat.le_zero.mp hf
      simp at h0
    | succ f =>
      have hp : sep.isPrefixOf (c :: (l' ++ sep ++ r)) = false := by
        cases hp : sep.isPrefixOf (c :: (l' ++ sep ++ r)) with
        | true =>
          exact absurd (List.isPrefixOf_iff_prefix.mp hp)
            (H (c :: l') (List.suffix_refl _) (List.cons_ne_nil _ _))
        | false => rfl
      show splitOnCore sep (f + 1) (c :: (l' ++ sep ++ r))
        = (c :: l') :: splitOnCore sep r.length r
      rw [splitOnCore_cons_neg hp]
      have hlen : (l' ++ sep ++ r).length ≤ f := by
        have hb : ((c :: l') ++ sep ++ r).length ≤ f + 1 := hf
        simp only [List.cons_append, List.length_cons] at hb
        omega
      rw [ih f hlen (fun s hs hne => H s (hs.trans (List.suffix_cons c l')) hne)]

theorem splitOnL_append_first {sep l r : List Char} (hsep : sep ≠ [])
    (H : ∀ s, s <:+ l → s ≠ [] → ¬ sep <+: (s ++ sep ++ r)) :
    splitOnL sep (l ++ sep ++ r) = l :: splitOnL sep r := by
  obtain ⟨d, ds, rfl⟩ : ∃ d ds, sep = d :: ds := by
    cases sep with
    | nil => exact absurd rfl hsep
    | cons d ds => exact ⟨d, ds, rfl⟩
  show splitOnCore _ _ _ = _ :: splitOnCore _ _ _
  exact splitOnCore_append_first hsep l _ le_rfl H

theorem pre_of_append_cons {sep X Y : List Char} {d : Char}
    (h : sep <+: (X ++ d :: Y)) (hd : d ∉ sep) : sep <+: X := by
  rcases List.prefix_or_prefix_of_prefix h (List.prefix_append X (d :: Y)) with h1 | h1
  · exact h1
  · obtain ⟨u, hu⟩ := h1
    cases u with
    | nil => rw [← hu]; simp
    | cons e u' =>
      exfalso
      rw [← hu, List.prefix_append_right_inj] at h
      rcases List.cons_prefix_cons.mp h with ⟨he, -⟩
      exact hd (hu ▸ List.mem_append.mpr (Or.inr (he ▸ List.mem_cons_self e u')))

theorem infix_split_append_cons {sep X Y : List Char} {d : Char}
    (h : sep <:+: (X ++ d :: Y)) (hd : d ∉ sep) : sep <:+: X ∨ sep <:+: Y := by
  induction X with
  | nil =>
    rcases List.infix_cons_iff.mp (by simpa using h) with h1 | h1
    · cases sep with
      | nil => exact Or.inl List.nil_infix
      | cons e t =>
        rcases List.cons_prefix_cons.mp h1 with ⟨rfl, -⟩
        exact absurd (List.mem_cons_self _ _) hd
    · exact Or.inr h1
  | cons x X' ih =>
    rcases List.infix_cons_iff.mp (show sep <:+: x :: (X' ++ d :: Y) by simpa using h)
      with h1 | h1
    · exact Or.inl (pre_of_append_cons (show sep <+: (x :: X') ++ d :: Y from h1) hd).isInfix
    · rcases ih h1 with h2 | h2
      · exact Or.inl (List.infix_cons_iff.mpr (Or.inr h2))
      · exact Or.inr h2

theorem infix_append_split {sep X Y : List Char}
    (h : sep <:+: (X ++ Y)) : sep <:+: Y ∨ ∃ s, s <:+ X ∧ s ≠ [] ∧ sep <+: (s ++ Y) := by
  induction X with
  | nil => exact Or.inl (by simpa using h)
  | cons x X' ih =>
    rcases List.infix_cons_iff.mp (show sep <:+: x :: (X' ++ Y) by simpa using h)
      with h1 | h1
    · exact Or.inr ⟨x :: X', List.suffix_refl _, List.cons_ne_nil _ _, h1⟩
    · rcases ih h1 with h2 | ⟨s, hs, hne, hpre⟩
      · exact Or.inl h2
      · exact Or.inr ⟨s, hs.trans (List.suffix_cons x X'), hne, hpre⟩

theorem suffix_append_split {s X Y : List Char} (h : s <:+ (X ++ Y)) :
    s <:+ Y ∨ ∃ t, t <:+ X ∧ s = t ++ Y := by
  induction X with
  | nil => exact Or.inl (by simpa using h)
  | cons x X' ih =>
    rcases List.suffix_cons_iff.mp (show s <:+ x :: (X' ++ Y) by simpa using h)
      with h1 | h1
    · exact Or.inr ⟨x :: X', List.suffix_refl _, by simpa using h1⟩
    · rcases ih h1 with h2 | ⟨t, ht, rfl⟩
      · exact Or.inl h2
      · exact Or.inr ⟨t, ht.trans (List.suffix_cons x X'), rfl⟩

theorem tails_check {X sep : List Char}
    (h : X.tails.all (fun s => s.isEmpty || !s.isPrefixOf sep) = true) :
    ∀ s, s <:+ X → s ≠ [] → ¬ s <+: sep := by
  intro s hs hne hp
  have h2 := List.all_eq_true.mp h s ((List.mem_tails s X).mpr hs)
  simp [List.isEmpty_iff, hne] at h2
  simp [List.isPrefixOf_iff_prefix.mpr hp] at h2

theorem not_infix_append_of {sep X A : List Char} (hA : ¬ sep <:+: A)
    (hlen : X.length < sep.length)
    (hs : ∀ s, s <:+ X → s ≠ [] → ¬ s <+: sep) : ¬ sep <:+: (X ++ A) := by
  intro h
  rcases infix_append_split h with h1 | ⟨s, hsx, hne, hpre⟩
  · exact hA h1
  · rcases List.prefix_or_prefix_of_prefix hpre (List.prefix_append s A) with h2 | h2
    · have l1 := h2.length_le
      have l2 := hsx.length_le
      omega
    · exact hs s hsx hne h2

theorem startH_check {sep pre mid : List Char}
    (h : pre.tails.all (fun s => s.isEmpty || !sep.isPrefixOf (s ++ sep ++ mid)) = true) :
    ∀ s, s <:+ pre → s ≠ [] → ¬ sep <+: (s ++ sep ++ mid) := by
  intro s hs hne hp
  have h2 := List.all_eq_true.mp h s ((List.mem_tails s pre).mpr hs)
  have h3 : sep.isPrefixOf (s ++ sep ++ mid) = true := List.isPrefixOf_iff_prefix.mpr hp
  simp only [List.append_assoc] at h3
  simp [List.isEmpty_iff, hne, h3] at h2

theorem stripL_cons_space {c : Char} (hc : pyIsSpace c = true) (z : List Char) :
    stripL (c :: z) = stripL z := by
  simp [stripL, List.dropWhile_cons, hc]

theorem stripL_append_space {c : Char} (hc : pyIsSpace c = true) (z : List Char) :
    stripL (z ++ [c]) = stripL z := by
  unfold stripL
  rw [List.dropWhile_append]
  by_cases h : (z.dropWhile pyIsSpace).isEmpty
  · rw [if_pos h]
    rw [List.isEmpty_iff] at h
    simp [h, List.dropWhile_cons, hc]
  · rw [if_neg h]
    rw [List.reverse_append]
    simp [List.dropWhile_cons, hc]

theorem stripL_eq_self_parts {x : List Char} (h : stripL x = x) :
    x.dropWhile pyIsSpace = x ∧ x.reverse.dropWhile pyIsSpace = x.reverse := by
  have hv : (x.dropWhile pyIsSpace).reverse.dropWhile pyIsSpace = x.reverse := by
    have h2 := congrArg List.reverse h
    simpa [stripL] using h2
  have hlen1 : ((x.dropWhile pyIsSpace).reverse.dropWhile pyIsSpace).length
      ≤ (x.dropWhile pyIsSpace).length := by
    have h3 := (List.dropWhile_suffix (l := (x.dropWhile pyIsSpace).reverse) pyIsSpace).length_le
    simpa using h3
  have hlen2 : (x.dropWhile pyIsSpace).length ≤ x.length :=
    (List.dropWhile_suffix (l := x) pyIsSpace).length_le
  have hxlen : (x.dropWhile pyIsSpace).length = x.length := by
    have := congrArg List.length hv
    simp at this
    omega
  have hu : x.dropWhile pyIsSpace = x :=
    (List.dropWhile_suffix pyIsSpace).eq_of_length hxlen
  refine ⟨hu, ?_⟩
  rw [hu] at hv
  exact hv

theorem head_not_space {x : List Char} (h : x.dropWhile pyIsSpace = x)
    {c : Char} {t : List Char} (hx : x = c :: t) : pyIsSpace c = false := by
  subst hx
  cases hc : pyIsSpace c with
  | false => rfl
  | true =>
    exfalso
    rw [List.dropWhile_cons, hc, if_pos rfl] at h
    have hl := (List.dropWhile_suffix (l := t) pyIsSpace).length_le
    have h2 := congrArg List.length h
    simp at h2
    omega

theorem exists_head_not_space {y : List Char} (h : stripL y = y) (hne : y ≠ []) :
    ∃ c t, y = c :: t ∧ pyIsSpace c = false := by
  obtain ⟨h1, -⟩ := stripL_eq_self_parts h
  cases hy : y with
  | nil => exact absurd hy hne
  | cons c t => exact ⟨c, t, rfl, head_not_space (hy ▸ h1) rfl⟩

theorem exists_last_not_space {y : List Char} (h : stripL y = y) (hne : y ≠ []) :
    ∃ d u, y.reverse = d :: u ∧ pyIsSpace d = false := by
  obtain ⟨-, h2⟩ := stripL_eq_self_parts h
  cases hy : y.reverse with
  | nil =>
    have : y = [] := by simpa using congrArg List.reverse hy
    exact absurd this hne
  | cons d u => exact ⟨d, u, rfl, head_not_space (hy ▸ h2) rfl⟩

theorem stripL_eq_self_of {x : List Char} {c d : Char} {t u : List Char}
    (hx : x = c :: t) (hc : pyIsSpace c = false)
    (hrev : x.reverse = d :: u) (hd : pyIsSpace d = false) : stripL x = x := by
  have h1 : x.dropWhile pyIsSpace = x := by
    rw [hx]
    simp [List.dropWhile_cons, hc]
  have h2 : x.reverse.dropWhile pyIsSpace = x.reverse := by
    rw [hrev]
    simp [List.dropWhile_cons, hd]
  unfold stripL
  rw [h1, h2, List.reverse_reverse]

/-! ### Lemmas about pyWords, chunk3 and joinSep -/

theorem pyWordsAux_ne_nil : ∀ (xs acc : List Char), acc ≠ [] → pyWordsAux xs acc ≠ [] := by
  intro xs
  induction xs with
  | nil =>
    intro acc h
    simp [pyWordsAux, List.isEmpty_iff, h]
  | cons c cs ih =>
    intro acc h
    cases hc : pyIsSpace c with
    | true => simp [pyWordsAux, hc, List.isEmpty_iff, h]
    | false =>
      simp only [pyWordsAux, hc]
      exact ih (c :: acc) (List.cons_ne_nil c acc)

theorem pyWords_cons_ne {c : Char} (hc : pyIsSpace c = false) (t : List Char) :
    pyWords (c :: t) ≠ [] := by
  unfold pyWords
  simp only [pyWordsAux, hc]
  exact pyWordsAux_ne_nil t [c] (List.cons_ne_nil c [])

theorem pyWordsAux_word : ∀ (w : List Char), (∀ ch ∈ w, pyIsSpace ch = false) →
    ∀ (acc rest : List Char), acc.reverse ++ w ≠ [] →
      pyWordsAux (w ++ ' ' :: rest) acc = (acc.reverse ++ w) :: pyWordsAux rest [] := by
  intro w
  induction w with
  | nil =>
    intro _ acc rest hne
    have hacc : acc ≠ [] := by simpa using hne
    have hsp : pyIsSpace ' ' = true := rfl
    simp [pyWordsAux, hsp, List.isEmpty_iff, hacc]
  | cons ch w' ih =>
    intro hw acc rest hne
    have hch : pyIsSpace ch = false := hw ch (List.mem_cons_self ch w')
    show pyWordsAux (ch :: (w' ++ ' ' :: rest)) acc = _
    simp only [pyWordsAux, hch]
    rw [ih (fun a ha => hw a (List.mem_cons_of_mem _ ha)) (ch :: acc) rest (by simp)]
    simp

theorem pyWords_word_space {w : List Char} (hw : w ≠ [])
    (hc : ∀ ch ∈ w, pyIsSpace ch = false) (rest : List Char) :
    pyWords (w ++ ' ' :: rest) = w :: pyWords rest := by
  unfold pyWords
  rw [pyWordsAux_word w hc [] rest (by simpa using hw)]
  simp

theorem pyWordsAux_sound : ∀ (xs acc : List Char),
    (∀ ch ∈ acc, pyIsSpace ch = false) →
    ∀ w ∈ pyWordsAux xs acc, w ≠ [] ∧ ∀ ch ∈ w, pyIsSpace ch = false := by
  intro xs
  induction xs with
  | nil =>
    intro acc hacc w hw
    by_cases h : acc = []
    · simp [pyWordsAux, h] at hw
    · simp [pyWordsAux, List.isEmpty_iff, h] at hw
      subst hw
      refine ⟨by simpa using h, fun ch hch => hacc ch (by simpa using hch)⟩
  | cons c cs ih =>
    intro acc hacc w hw
    cases hc : pyIsSpace c with
    | true =>
      by_cases h : acc = []
      · rw [show pyWordsAux (c :: cs) acc = pyWordsAux cs [] by simp [pyWordsAux, hc, h]] at hw
        exact ih [] (by simp) w hw
      · rw [show pyWordsAux (c :: cs) acc = acc.reverse :: pyWordsAux cs [] by
          simp [pyWordsAux, hc, List.isEmpty_iff, h]] at hw
        rcases List.mem_cons.mp hw with rfl | hw2
        · refine ⟨by simpa using h, fun ch hch => hacc ch (by simpa using hch)⟩
        · exact ih [] (by simp) w hw2
    | false =>
      rw [show pyWordsAux (c :: cs) acc = pyWordsAux cs (c :: acc) by
        simp [pyWordsAux, hc]] at hw
      refine ih (c :: acc) ?_ w hw
      intro ch hch
      rcases List.mem_cons.mp hch with rfl | hch2
      · exact hc
      · exact hacc ch hch2

theorem pyWords_sound (xs : List Char) :
    ∀ w ∈ pyWords xs, w ≠ [] ∧ ∀ ch ∈ w, pyIsSpace ch = false :=
  pyWordsAux_sound xs [] (by simp)

theorem chunk3_flatten {α : Type} : ∀ ws : List α, (chunk3 ws).flatten = ws := by
  intro ws
  induction ws using chunk3.induct with
  | case1 => rfl
  | case2 a => rfl
  | case3 a b => rfl
  | case4 a b c rest ih => simp [chunk3, ih]

theorem chunk3_mem {α : Type} : ∀ (ws : List α) (g : List α),
    g ∈ chunk3 ws → g ≠ [] ∧ g.length ≤ 3 := by
  intro ws
  induction ws using chunk3.induct with
  | case1 => intro g hg; simp [chunk3] at hg
  | case2 a => intro g hg; simp [chunk3] at hg; simp [hg]
  | case3 a b => intro g hg; simp [chunk3] at hg; simp [hg]
  | case4 a b c rest ih =>
    intro g hg
    rcases List.mem_cons.mp hg with rfl | hg2
    · simp
    · exact ih g hg2

theorem chunk3_ne_nil {α : Type} {ws : List α} (h : ws ≠ []) : chunk3 ws ≠ [] := by
  cases ws with
  | nil => exact absurd rfl h
  | cons a t =>
    cases t with
    | nil => simp [chunk3]
    | cons b u =>
      cases u with
      | nil => simp [chunk3]
      | cons c v => simp [chunk3]

theorem joinSep_cons_ex (sep p : List Char) (ps : List (List Char)) :
    ∃ u, joinSep sep (p :: ps) = p ++ u := by
  cases ps with
  | nil => exact ⟨[], by simp [joinSep]⟩
  | cons q qs => exact ⟨sep ++ joinSep sep (q :: qs), by simp [joinSep]⟩

theorem mem_infix_joinSep {x sep : List Char} :
    ∀ {L : List (List Char)}, x ∈ L → x <:+: joinSep sep L := by
  intro L
  induction L with
  | nil => intro h; simp at h
  | cons p ps ih =>
    intro h
    rcases List.mem_cons.mp h with rfl | h2
    · obtain ⟨u, hu⟩ := joinSep_cons_ex sep x ps
      rw [hu]
      exact (List.prefix_append x u).isInfix
    · cases ps with
      | nil => simp at h2
      | cons q qs =>
        have hx : x <:+: joinSep sep (q :: qs) := ih h2
        show x <:+: p ++ sep ++ joinSep sep (q :: qs)
        exact hx.trans (List.suffix_append (p ++ sep) (joinSep sep (q :: qs))).isInfix

theorem pyWords_group {g : List (List Char)} (h1 : g ≠ []) (h3 : g.length ≤ 3)
    (hw : ∀ w ∈ g, w ≠ [] ∧ ∀ ch ∈ w, pyIsSpace ch = false) (rest : List Char) :
    pyWords ((joinSep [' '] g ++ [' ']) ++ rest) = g ++ pyWords rest := by
  rcases g with _ | ⟨a, _ | ⟨b, _ | ⟨c, _ | ⟨d, g'⟩⟩⟩⟩
  · exact absurd rfl h1
  · have ha := hw a (by simp)
    have hsh : (joinSep [' '] [a] ++ [' ']) ++ rest = a ++ ' ' :: rest := by
      simp [joinSep]
    rw [hsh, pyWords_word_space ha.1 ha.2]
    simp
  · have ha := hw a (by simp)
    have hb := hw b (by simp)
    have hsh : (joinSep [' '] [a, b] ++ [' ']) ++ rest
        = a ++ ' ' :: (b ++ ' ' :: rest) := by
      simp [joinSep]
    rw [hsh, pyWords_word_space ha.1 ha.2, pyWords_word_space hb.1 hb.2]
    simp
  · have ha := hw a (by simp)
    have hb := hw b (by simp)
    have hc := hw c (by simp)
    have hsh : (joinSep [' '] [a, b, c] ++ [' ']) ++ rest
        = a ++ ' ' :: (b ++ ' ' :: (c ++ ' ' :: rest)) := by
      simp [joinSep]
    rw [hsh, pyWords_word_space ha.1 ha.2, pyWords_word_space hb.1 hb.2,
      pyWords_word_space hc.1 hc.2]
    simp
  · simp at h3

theorem pyWords_stream_flatten : ∀ ws : List (List Char),
    (∀ w ∈ ws, w ≠ [] ∧ ∀ ch ∈ w, pyIsSpace ch = false) →
    pyWords ((chunk3 ws).map (fun g => joinSep [' '] g ++ [' '])).flatten = ws := by
  intro ws
  induction ws using chunk3.induct with
  | case1 => intro _; rfl
  | case2 a =>
    intro h
    have hg := pyWords_group (g := [a]) (List.cons_ne_nil _ _) (by simp) h []
    simpa [chunk3, pyWords] using hg
  | case3 a b =>
    intro h
    have hg := pyWords_group (g := [a, b]) (List.cons_ne_nil _ _) (by simp) h []
    simpa [chunk3, pyWords] using hg
  | case4 a b c rest ih =>
    intro h
    have hr : ∀ w ∈ rest, w ≠ [] ∧ ∀ ch ∈ w, pyIsSpace ch = false :=
      fun w hw => h w (by simp [hw])
    have habc : ∀ w ∈ [a, b, c], w ≠ [] ∧ ∀ ch ∈ w, pyIsSpace ch = false := by
      intro w hw
      apply h
      rcases List.mem_cons.mp hw with rfl | hw
      · exact List.mem_cons_self _ _
      rcases List.mem_cons.mp hw with rfl | hw
      · exact List.mem_cons_of_mem _ (List.mem_cons_self _ _)
      rcases List.mem_cons.mp hw with rfl | hw
      · exact List.mem_cons_of_mem _ (List.mem_cons_of_mem _ (List.mem_cons_self _ _))
      · simp at hw
    have hg := pyWords_group (g := [a, b, c]) (List.cons_ne_nil _ _) (by simp) habc
      ((chunk3 rest).map (fun g => joinSep [' '] g ++ [' '])).flatten
    show pyWords ((joinSep [' '] [a, b, c] ++ [' ']) ::
      (chunk3 rest).map (fun g => joinSep [' '] g ++ [' '])).flatten = a :: b :: c :: rest
    rw [List.flatten_cons, hg, ih hr]
    rfl

theorem filterMap_delta_sources (ss : List CopilotSource) :
    (ss.map StreamEvent.source).filterMap deltaPayload = [] := by
  induction ss with
  | nil => rfl
  | cons a t ih => simp [deltaPayload, ih]

theorem filterMap_delta_deltas (ds : List (List Char)) :
    (ds.map StreamEvent.delta).filterMap deltaPayload = ds := by
  induction ds with
  | nil => rfl
  | cons a t ih => simp [deltaPayload, ih]

theorem filterMap_src_sources (ss : List CopilotSource) :
    (ss.map StreamEvent.source).filterMap srcPayload = ss := by
  induction ss with
  | nil => rfl
  | cons a t ih => simp [srcPayload, ih]

theorem filterMap_src_deltas (ds : List (List Char)) :
    (ds.map StreamEvent.delta).filterMap srcPayload = [] := by
  induction ds with
  | nil => rfl
  | cons a t ih => simp [srcPayload, ih]

/-- Claim C10: in the template streaming path the concatenation of the delta
payloads is the answer's whitespace-separated words regrouped into consecutive
groups of at most three, each group followed by one trailing space; the
streamed text therefore agrees with the template answer exactly up to
whitespace normalization, and a newline inside the answer is not preserved. -/
theorem C10_template_stream_deltas :
    (∀ answer : List Char, (chunk3 (pyWords answer)).flatten = pyWords answer)
    ∧ (∀ (answer : List Char) (g : List (List Char)),
        g ∈ chunk3 (pyWords answer) → g ≠ [] ∧ g.length ≤ 3)
    ∧ (∀ (q pn : List Char) (s : List CopilotSource),
        (template_answer_stream q pn s).filterMap deltaPayload
          = streamChunks (generate_template_response q pn s).1)
    ∧ (∀ answer : List Char, pyWords (streamChunks answer).flatten = pyWords answer)
    ∧ (streamChunks ['a', '\n', 'b']).flatten ≠ ['a', '\n', 'b'] := by
  refine ⟨fun answer => chunk3_flatten (pyWords answer),
    fun answer g hg => chunk3_mem (pyWords answer) g hg, ?_, ?_, by decide⟩
  · intro q pn s
    unfold template_answer_stream
    rw [List.filterMap_append, List.filterMap_append, filterMap_delta_sources,
      filterMap_delta_deltas]
    simp [deltaPayload, List.filterMap_cons]
  · intro answer
    exact pyWords_stream_flatten (pyWords answer) (pyWords_sound answer)

/-- Witness for Claim C10 at a concrete chunk. -/
theorem C10_template_stream_deltas_witness :
    ([['d']] : List (List Char)) ≠ [] ∧ ([['d']] : List (List Char)).length ≤ 3 :=
  C10_template_stream_deltas.2.1 ['a', ' ', 'b', ' ', 'c', ' ', 'd'] [['d']] (by decide)

/-- Claim C5: for a successful retrieval the method tag is vector exactly when
some result is a note with score strictly above one half, and keyword
otherwise (retrieval.py 51-59). -/
theorem C5_retrieval_method_classification :
    ∀ results : List RetrievalRow,
      ((retrieve_context (.ok results)).2 = "vector".toList ↔
        ∃ r ∈ results, r.source_type = "note".toList ∧ (1 : ℚ)/2 < r.score)
      ∧ ((retrieve_context (.ok results)).2 = "keyword".toList ↔
        ¬ ∃ r ∈ results, r.source_type = "note".toList ∧ (1 : ℚ)/2 < r.score) := by
  intro results
  have hcls : hasVectorResults results = true ↔
      ∃ r ∈ results, r.source_type = "note".toList ∧ (1 : ℚ)/2 < r.score := by
    simp [hasVectorResults, List.any_eq_true]
  by_cases hb : hasVectorResults results = true
  · have h2 : (retrieve_context (.ok results)).2 = "vector".toList := by
      simp [retrieve_context, hb]
    have hvk : ("vector".toList : List Char) ≠ "keyword".toList := by decide
    rw [h2]
    exact ⟨iff_of_true rfl (hcls.mp hb), iff_of_false hvk (fun hc => hc (hcls.mp hb))⟩
  · have hb2 : hasVectorResults results = false := by simpa using hb
    have h2 : (retrieve_context (.ok results)).2 = "keyword".toList := by
      simp [retrieve_context, hb2]
    have hkv : ("keyword".toList : List Char) ≠ "vector".toList := by decide
    have hnex : ¬ ∃ r ∈ results, r.source_type = "note".toList ∧ (1 : ℚ)/2 < r.score :=
      fun hx => hb (hcls.mpr hx)
    rw [h2]
    exact ⟨iff_of_false hkv hnex, iff_of_true rfl hnex⟩

/-- Witness for Claim C5 at the empty result list. -/
theorem C5_retrieval_method_classification_witness :
    (retrieve_context (.ok [])).2 = "keyword".toList :=
  (C5_retrieval_method_classification []).2.mpr (by simp)

/-- Claim C6: a context-store failure is degraded to the empty source list with
retrieval method error, and the non-streaming pipeline still returns a
structurally valid response generated from zero sources instead of failing. -/
theorem C6_retrieval_failure_degrades :
    ∀ (e pn q : List Char) (st : Settings) (hosted : Except (List Char) (List Char)),
      retrieve_context (.error e) = ([], "error".toList)
      ∧ ask_copilot true pn q st (.error e) hosted
          = .ok { answer := (generate_answer q pn [] st hosted).1,
                  next_actions := (generate_answer q pn [] st hosted).2.1,
                  sources := [],
                  model_used := (generate_answer q pn [] st hosted).2.2,
                  retrieval_method := "error".toList } := by
  intro e pn q st hosted
  exact ⟨rfl, rfl⟩

theorem renderSource_eq_spec (i : Nat) (s : CopilotSource) :
    renderSource i s = specRenderSource i s := by
  unfold renderSource specRenderSource
  have h1 : (":\n".toList : List Char) = [':'] ++ ['\n'] := rfl
  have h2 : ((":".toList : List Char)) = [':'] := rfl
  rw [h1, h2]
  simp [List.append_assoc]

theorem buildContextParts_eq_spec : ∀ (ss : List CopilotSource) (i : Nat),
    buildContextParts i ss = List.zipWith specRenderSource (List.range' i ss.length) ss := by
  intro ss
  induction ss with
  | nil => intro i; rfl
  | cons s t ih =>
    intro i
    rw [show (s :: t).length = t.length + 1 from rfl, List.range'_succ]
    simp only [buildContextParts, List.zipWith_cons_cons, ih (i + 1)]
    rw [renderSource_eq_spec]

/-- Claim C7: the context block of the prompt builder renders each source at
its 1-based position in the documented bracketed form, joined by blank lines,
and the empty source list yields the fixed non-empty placeholder. -/
theorem C7_prompt_builder :
    (∀ sources : List CopilotSource, contextBlock sources = specContextBlock sources)
    ∧ contextBlock [] = noContextPlaceholder
    ∧ noContextPlaceholder ≠ [] := by
  refine ⟨?_, rfl, by decide⟩
  intro sources
  cases sources with
  | nil => rfl
  | cons s t =>
    show (if (buildContextParts 1 (s :: t)).isEmpty then noContextPlaceholder
      else joinSep "\n\n".toList (buildContextParts 1 (s :: t))) = specContextBlock (s :: t)
    rw [buildContextParts_eq_spec]
    rfl

/-- Claim C8: the hosted backend is selected exactly when both the endpoint
and the key are configured non-empty; otherwise, and on any hosted failure,
generate_answer is the template response, whose model identifier is None. -/
theorem C8_generate_answer_selection :
    ∀ (q pn : List Char) (sources : List CopilotSource) (st : Settings)
      (hosted : Except (List Char) (List Char)),
      (has_azure_openai st = true ↔
        ((∃ ep, st.azure_openai_endpoint = some ep ∧ ep ≠ [])
          ∧ (∃ k, st.azure_openai_key = some k ∧ k ≠ [])))
      ∧ (has_azure_openai st = false →
          generate_answer q pn sources st hosted = generate_template_response q pn sources)
      ∧ (∀ err, hosted = .error err →
          generate_answer q pn sources st hosted = generate_template_response q pn sources)
      ∧ (generate_template_response q pn sources).2.2 = none
      ∧ (∀ text, hosted = .ok text → has_azure_openai st = true →
          generate_answer q pn sources st hosted
            = ((parse_llm_response text).1, (parse_llm_response text).2,
               some st.azure_openai_chat_deployment)) := by
  intro q pn sources st hosted
  refine ⟨?_, ?_, ?_, ?_, ?_⟩
  · cases st with
    | mk ep key dep =>
      cases ep <;> cases key <;>
        simp [has_azure_openai, truthyStr, List.isEmpty_iff]
  · intro h
    simp [generate_answer, h]
  · intro err h
    subst h
    cases hb : has_azure_openai st <;> simp [generate_answer, hb]
  · simp only [generate_template_response]
    split_ifs <;> rfl
  · intro text h hb
    subst h
    rcases hp : parse_llm_response text with ⟨a, b⟩
    simp [generate_answer, hb, hp]

/-- Witness for Claim C8: concrete fallback on a hosted failure. -/
theorem C8_generate_answer_selection_witness :
    generate_answer ['q'] ['p'] [] templateSettings (Except.error ['x'])
      = generate_template_response ['q'] ['p'] [] :=
  (C8_generate_answer_selection ['q'] ['p'] [] templateSettings
    (Except.error ['x'])).2.2.1 ['x'] rfl

/-! ### Stream ordering lemmas -/

theorem map_eventTag_sources (ss : List CopilotSource) :
    (ss.map StreamEvent.source).map eventTag
      = List.replicate ss.length EventTag.source := by
  induction ss with
  | nil => rfl
  | cons a t ih => simp [eventTag, ih, List.replicate_succ]

theorem map_eventTag_deltas (ds : List (List Char)) :
    (ds.map StreamEvent.delta).map eventTag
      = List.replicate ds.length EventTag.delta := by
  induction ds with
  | nil => rfl
  | cons a t ih => simp [eventTag, ih, List.replicate_succ]

theorem tagsAfterDelta_replicate (n : Nat) :
    tagsAfterDelta (List.replicate n EventTag.delta
      ++ [EventTag.actions, EventTag.done]) = true := by
  induction n with
  | zero => rfl
  | succ k ih => simpa [List.replicate_succ, tagsAfterDelta] using ih

theorem amendedAfterMeta_sources (m : Nat) (rest : List EventTag) :
    amendedAfterMeta (List.replicate m EventTag.source ++ rest)
      = amendedAfterMeta rest := by
  induction m with
  | zero => rfl
  | succ k ih => simpa [List.replicate_succ, amendedAfterMeta] using ih

theorem amendedAfterMeta_deltas (n : Nat) :
    amendedAfterMeta (List.replicate n EventTag.delta
      ++ [EventTag.actions, EventTag.done]) = true := by
  cases n with
  | zero => rfl
  | succ k =>
    rw [List.replicate_succ, List.cons_append]
    show tagsAfterDelta (List.replicate k EventTag.delta
      ++ [EventTag.actions, EventTag.done]) = true
    exact tagsAfterDelta_replicate k

theorem streamChunks_ne_nil {answer : List Char} (h : pyWords answer ≠ []) :
    streamChunks answer ≠ [] := by
  unfold streamChunks
  simp only [ne_eq, List.map_eq_nil_iff]
  exact chunk3_ne_nil h

theorem template_changes_head (pn : List Char) (notes labs meds : List CopilotSource) :
    ∃ u, template_changes_response pn notes labs meds = 'B' :: u := by
  unfold template_changes_response
  simp only [List.singleton_append, List.cons_append]
  obtain ⟨u, hu⟩ := joinSep_cons_ex ['\n'] _ _
  rw [hu]
  refine ⟨"ased on the available records for ".toList ++ pn
    ++ ", here are the key changes:\n".toList ++ u, ?_⟩
  rw [show ("Based on the available records for ".toList : List Char)
    = 'B' :: "ased on the available records for ".toList from rfl]
  simp [List.append_assoc]

theorem template_medication_head (pn : List Char) (meds labs notes : List CopilotSource) :
    ∃ u, template_medication_response pn meds labs notes = 'R' :: u := by
  unfold template_medication_response
  cases findLisinopril meds with
  | some m =>
    simp only [List.singleton_append, List.cons_append]
    obtain ⟨u, hu⟩ := joinSep_cons_ex ['\n'] _ _
    rw [hu]
    refine ⟨"egarding medication management for ".toList ++ pn
      ++ ":\n".toList ++ u, ?_⟩
    rw [show ("Regarding medication management for ".toList : List Char)
      = 'R' :: "egarding medication management for ".toList from rfl]
    simp [List.append_assoc]
  | none =>
    simp only [List.singleton_append, List.cons_append]
    obtain ⟨u, hu⟩ := joinSep_cons_ex ['\n'] _ _
    rw [hu]
    refine ⟨"egarding medication management for ".toList ++ pn
      ++ ":\n".toList ++ u, ?_⟩
    rw [show ("Regarding medication management for ".toList : List Char)
      = 'R' :: "egarding medication management for ".toList from rfl]
    simp [List.append_assoc]

theorem template_risk_head (pn : List Char) (sources : List CopilotSource) :
    ∃ u, template_risk_response pn sources = 'R' :: u := by
  unfold template_risk_response
  simp only [List.cons_append]
  obtain ⟨u, hu⟩ := joinSep_cons_ex ['\n'] _ _
  rw [hu]
  refine ⟨"isk assessment for ".toList ++ pn ++ ":\n".toList ++ u, ?_⟩
  rw [show ("Risk assessment for ".toList : List Char)
    = 'R' :: "isk assessment for ".toList from rfl]
  simp [List.append_assoc]

theorem template_generic_head (pn : List Char) (sources : List CopilotSource) :
    ∃ u, template_generic_response pn sources = 'B' :: u := by
  unfold template_generic_response
  simp only [List.singleton_append, List.cons_append]
  obtain ⟨u, hu⟩ := joinSep_cons_ex ['\n'] _ _
  rw [hu]
  refine ⟨"ased on the available records for ".toList ++ pn ++ ":\n".toList ++ u, ?_⟩
  rw [show ("Based on the available records for ".toList : List Char)
    = 'B' :: "ased on the available records for ".toList from rfl]
  simp [List.append_assoc]

theorem template_answer_first_word (q pn : List Char) (s : List CopilotSource) :
    pyWords (generate_template_response q pn s).1 ≠ [] := by
  unfold generate_template_response
  dsimp only
  split_ifs with h1 h2 h3
  · obtain ⟨u, hu⟩ := template_changes_head pn
      (s.filter (fun x => x.source_type == "note".toList))
      (s.filter (fun x => x.source_type == "lab".toList))
      (s.filter (fun x => x.source_type == "med".toList))
    show pyWords (template_changes_response pn _ _ _) ≠ []
    rw [hu]
    exact pyWords_cons_ne (by decide) u
  · obtain ⟨u, hu⟩ := template_medication_head pn
      (s.filter (fun x => x.source_type == "med".toList))
      (s.filter (fun x => x.source_type == "lab".toList))
      (s.filter (fun x => x.source_type == "note".toList))
    show pyWords (template_medication_response pn _ _ _) ≠ []
    rw [hu]
    exact pyWords_cons_ne (by decide) u
  · obtain ⟨u, hu⟩ := template_risk_head pn s
    show pyWords (template_risk_response pn s) ≠ []
    rw [hu]
    exact pyWords_cons_ne (by decide) u
  · obtain ⟨u, hu⟩ := template_generic_head pn s
    show pyWords (template_generic_response pn s) ≠ []
    rw [hu]
    exact pyWords_cons_ne (by decide) u

theorem tag_shape_of (S : List CopilotSource) (D A : List (List Char))
    (M : Option (List Char)) (T r2 : List Char) :
    amendedTagSeq ((StreamEvent.metadata r2 ::
      (S.map .source ++ D.map .delta
        ++ [.actions A, .done M T])).map eventTag) = true := by
  rw [List.map_cons]
  show amendedAfterMeta ((S.map StreamEvent.source ++ D.map StreamEvent.delta
    ++ [StreamEvent.actions A, StreamEvent.done M T]).map eventTag) = true
  rw [List.map_append, List.map_append, map_eventTag_sources, map_eventTag_deltas]
  rw [show ([StreamEvent.actions A, StreamEvent.done M T].map eventTag)
    = [EventTag.actions, EventTag.done] from rfl]
  rw [List.append_assoc, amendedAfterMeta_sources]
  exact amendedAfterMeta_deltas _

theorem filterMap_delta_of (S : List CopilotSource) (D A : List (List Char))
    (M : Option (List Char)) (T r2 : List Char) :
    (StreamEvent.metadata r2 ::
      (S.map .source ++ D.map .delta
        ++ [.actions A, .done M T])).filterMap deltaPayload = D := by
  rw [List.filterMap_cons]
  simp only [deltaPayload]
  rw [List.filterMap_append, List.filterMap_append,
    filterMap_delta_sources, filterMap_delta_deltas]
  rw [show ([StreamEvent.actions A, StreamEvent.done M T]).filterMap deltaPayload
    = [] from rfl]
  simp

theorem filterMap_src_of (S : List CopilotSource) (D A : List (List Char))
    (M : Option (List Char)) (T r2 : List Char) :
    (StreamEvent.metadata r2 ::
      (S.map .source ++ D.map .delta
        ++ [.actions A, .done M T])).filterMap srcPayload = S := by
  rw [List.filterMap_cons]
  simp only [srcPayload]
  rw [List.filterMap_append, List.filterMap_append,
    filterMap_src_sources, filterMap_src_deltas]
  rw [show ([StreamEvent.actions A, StreamEvent.done M T]).filterMap srcPayload
    = [] from rfl]
  simp

theorem getLast_shape (a x y : StreamEvent) (l1 l2 : List StreamEvent) :
    (a :: (l1 ++ l2 ++ [x, y])).getLast? = some y := by
  have h : a :: (l1 ++ l2 ++ [x, y]) = (a :: (l1 ++ l2 ++ [x])) ++ [y] := by simp
  rw [h, List.getLast?_concat]

theorem stream_success_shape (st : Settings) (q pn : List Char)
    (store : Except (List Char) (List RetrievalRow)) (D : List (List Char)) :
    generate_stream st q pn store D .success
      = .metadata (retrieve_context store).2 ::
        (if has_azure_openai st
         then openai_answer_stream ((retrieve_context store).1.map rowToSource) D st
         else template_answer_stream q pn ((retrieve_context store).1.map rowToSource)) :=
  rfl

theorem openai_stream_shape (S : List CopilotSource) (D : List (List Char))
    (st : Settings) :
    openai_answer_stream S D st
      = S.map .source ++ D.map .delta
        ++ [.actions (parse_llm_response D.flatten).2,
            .done (some st.azure_openai_chat_deployment) "vector".toList] := rfl

theorem template_stream_shape (q pn : List Char) (S : List CopilotSource) :
    template_answer_stream q pn S
      = S.map .source
        ++ (streamChunks (generate_template_response q pn S).1).map .delta
        ++ [.actions (generate_template_response q pn S).2.1,
            .done none "template".toList] := rfl

/-- Claim C1 (amended): on every run that raises no exception the event-type
sequence is one metadata event first, then one source event per retrieved
Source in retrieval order, then one delta event per text fragment produced by
the selected backend (at least one on the template path, whose answer is
never empty; zero or more on the hosted path, one per fragment received from
the model API), then one actions event and one done event; every erroring run
is a prefix of that sequence truncated by a single terminal error event. -/
theorem C1_stream_event_order_amended :
    ∀ (st : Settings) (q pn : List Char) (store : Except (List Char) (List RetrievalRow))
      (D : List (List Char)),
      amendedTagSeq ((generate_stream st q pn store D .success).map eventTag) = true
      ∧ (generate_stream st q pn store D .success).filterMap srcPayload
          = (retrieve_context store).1.map rowToSource
      ∧ (has_azure_openai st = false →
          (generate_stream st q pn store D .success).filterMap deltaPayload ≠ [])
      ∧ (has_azure_openai st = true →
          (generate_stream st q pn store D .success).filterMap deltaPayload = D)
      ∧ (∀ (k : Nat) (msg : List Char),
          generate_stream st q pn store D (.failAt k msg)
            = (generate_stream st q pn store D .success).take k ++ [.error msg]) := by
  intro st q pn store D
  refine ⟨?_, ?_, ?_, ?_, fun k msg => rfl⟩
  · rw [stream_success_shape]
    cases hb : has_azure_openai st
    · rw [if_neg (by simp [hb]), template_stream_shape]
      exact tag_shape_of _ _ _ _ _ _
    · rw [if_pos (by simp [hb]), openai_stream_shape]
      exact tag_shape_of _ _ _ _ _ _
  · rw [stream_success_shape]
    cases hb : has_azure_openai st
    · rw [if_neg (by simp [hb]), template_stream_shape]
      exact filterMap_src_of _ _ _ _ _ _
    · rw [if_pos (by simp [hb]), openai_stream_shape]
      exact filterMap_src_of _ _ _ _ _ _
  · intro hb
    rw [stream_success_shape, if_neg (by simp [hb]), template_stream_shape,
      filterMap_delta_of]
    exact streamChunks_ne_nil (template_answer_first_word q pn _)
  · intro hb
    rw [stream_success_shape, if_pos (by simp [hb]), openai_stream_shape,
      filterMap_delta_of]

/-- Witness for Claim C1 (amended) on a concrete template-path run. -/
theorem C1_stream_event_order_amended_witness :
    (generate_stream templateSettings ['h', 'i'] ['P']
      (.ok [labRow]) [] .success).filterMap deltaPayload ≠ [] :=
  (C1_stream_event_order_amended templateSettings ['h', 'i'] ['P']
    (.ok [labRow]) []).2.2.1 (by decide)

/-- Counterexample to Claim C1 as stated: a successful template-path run with
one retrieved source does not match the claimed grammar source*, metadata,
delta+, actions, done, because the code emits the metadata event before the
source events; the same run does match the amended grammar. -/
theorem C1_stream_event_order_counterexample :
    claimTagSeq ((generate_stream templateSettings ['h', 'i'] ['P']
      (.ok [labRow]) [] .success).map eventTag) = false
    ∧ amendedTagSeq ((generate_stream templateSettings ['h', 'i'] ['P']
      (.ok [labRow]) [] .success).map eventTag) = true := by
  constructor
  · decide
  · decide

/-- Claim C2 (amended): every successful stream opens with the metadata event
carrying the classified retrieval method, and closes with a done event whose
payload is hardcoded per backend: deployment name and the literal tag vector
for the hosted backend, no model and the literal tag template for the
template backend - not the classified retrieval-method tag. -/
theorem C2_done_event_amended :
    ∀ (st : Settings) (q pn : List Char) (store : Except (List Char) (List RetrievalRow))
      (D : List (List Char)),
      (generate_stream st q pn store D .success).head?
          = some (.metadata (retrieve_context store).2)
      ∧ (generate_stream st q pn store D .success).getLast?
          = some (if has_azure_openai st
                  then .done (some st.azure_openai_chat_deployment) "vector".toList
                  else .done none "template".toList) := by
  intro st q pn store D
  constructor
  · rfl
  · rw [stream_success_shape]
    cases hb : has_azure_openai st
    · rw [if_neg (by simp [hb]), if_neg (by simp [hb]), template_stream_shape]
      exact getLast_shape _ _ _ _ _
    · rw [if_pos (by simp [hb]), if_pos (by simp [hb]), openai_stream_shape]
      exact getLast_shape _ _ _ _ _

/-- Counterexample to Claim C2 as stated: on a run whose retrieval
classification is keyword, the template path's done event carries the literal
tag template instead. -/
theorem C2_done_event_counterexample :
    (generate_stream templateSettings ['h', 'i'] ['P'] (.ok [labRow]) [] .success).getLast?
        = some (.done none "template".toList)
    ∧ (retrieve_context (.ok [labRow])).2 = "keyword".toList
    ∧ ("template".toList : List Char) ≠ "keyword".toList := by
  refine ⟨by decide, by decide, by decide⟩

theorem changes_has_med_header (pn : List Char) {notes labs meds : List CopilotSource}
    (hmeds : meds ≠ []) :
    ("**Medication Changes:**".toList : List Char)
      <:+: template_changes_response pn notes labs meds := by
  unfold template_changes_response
  apply mem_infix_joinSep
  have hm : meds.isEmpty = false := by simp [List.isEmpty_iff, hmeds]
  simp [hm]

theorem changes_has_lab_header (pn : List Char) {notes labs meds : List CopilotSource}
    (hlabs : labs ≠ []) :
    ("\n**Lab Results:**".toList : List Char)
      <:+: template_changes_response pn notes labs meds := by
  unfold template_changes_response
  apply mem_infix_joinSep
  have hl : labs.isEmpty = false := by simp [List.isEmpty_iff, hlabs]
  simp [hl]

/-- Claim C9: for the question about the last 90 days with at least one med
source and one lab source, the template backend takes the changes branch, the
answer contains the Medication Changes and Lab Results headers, and the next
actions are exactly the fixed changes action list. -/
theorem C9_changes_scenario :
    ∀ (pn : List Char) (sources : List CopilotSource),
      (∃ s ∈ sources, s.source_type = "med".toList) →
      (∃ s ∈ sources, s.source_type = "lab".toList) →
      (generate_template_response changesQuestion pn sources).2.1 = changesActions
      ∧ "Medication Changes".toList
          <:+: (generate_template_response changesQuestion pn sources).1
      ∧ "Lab Results".toList
          <:+: (generate_template_response changesQuestion pn sources).1
      ∧ (generate_template_response changesQuestion pn sources).1
          = template_changes_response pn
              (sources.filter (fun s => s.source_type == "note".toList))
              (sources.filter (fun s => s.source_type == "lab".toList))
              (sources.filter (fun s => s.source_type == "med".toList)) := by
  intro pn sources hmed hlab
  have hcond : (containsL "last 90 days".toList (lowerL changesQuestion)
      || containsL "changed".toList (lowerL changesQuestion)
      || containsL "recent".toList (lowerL changesQuestion)) = true := by decide
  have hgen : generate_template_response changesQuestion pn sources
      = (template_changes_response pn
          (sources.filter (fun s => s.source_type == "note".toList))
          (sources.filter (fun s => s.source_type == "lab".toList))
          (sources.filter (fun s => s.source_type == "med".toList)),
         changesActions, none) := by
    unfold generate_template_response
    dsimp only
    rw [if_pos hcond]
  rw [hgen]
  obtain ⟨s0, hs0, hty0⟩ := hmed
  have hmne : sources.filter (fun s => s.source_type == "med".toList) ≠ [] :=
    List.ne_nil_of_mem (List.mem_filter.mpr ⟨hs0, by simp [hty0]⟩)
  obtain ⟨s1, hs1, hty1⟩ := hlab
  have hlne : sources.filter (fun s => s.source_type == "lab".toList) ≠ [] :=
    List.ne_nil_of_mem (List.mem_filter.mpr ⟨hs1, by simp [hty1]⟩)
  refine ⟨rfl, ?_, ?_, rfl⟩
  · exact (show ("Medication Changes".toList : List Char)
      <:+: "**Medication Changes:**".toList by decide).trans
      (changes_has_med_header pn hmne)
  · exact (show ("Lab Results".toList : List Char)
      <:+: "\n**Lab Results:**".toList by decide).trans
      (changes_has_lab_header pn hlne)

/-- Witness for Claim C9 on a concrete med and lab source pair. -/
theorem C9_changes_scenario_witness :
    (generate_template_response changesQuestion ['P'] [medSrc, labSrc]).2.1
      = changesActions :=
  (C9_changes_scenario ['P'] [medSrc, labSrc]
    ⟨medSrc, List.mem_cons_self _ _, by decide⟩
    ⟨labSrc, List.mem_cons_of_mem _ (List.mem_cons_self _ _), by decide⟩).1

/-! ### Parser claims -/

/-- Claim C4 (amended): when the NEXT ACTIONS marker is absent the parser
returns the fixed 3-item default action list, and its answer is the text
following the first ANSWER: occurrence truncated at the next occurrence if
any (trimmed), or the whole text trimmed when no ANSWER: marker occurs; the
parser is a total function of the input text, so it returns on every input.
The three conjuncts cover no occurrence, exactly one occurrence (to end of
text), and a first occurrence followed by a next one (truncation there,
whatever follows). -/
theorem C4_parser_no_marker_amended :
    (∀ text : List Char, ¬ naMarker <:+: text → ¬ ansMarker <:+: text →
      parse_llm_response text = (stripL text, defaultNextActions))
    ∧ (∀ pre mid : List Char, ¬ naMarker <:+: (pre ++ ansMarker ++ mid) →
        (∀ s, s <:+ pre → s ≠ [] → ¬ ansMarker <+: (s ++ ansMarker ++ mid)) →
        ¬ ansMarker <:+: mid →
        parse_llm_response (pre ++ ansMarker ++ mid)
          = (stripL mid, defaultNextActions))
    ∧ (∀ pre mid1 rest : List Char,
        ¬ naMarker <:+: (pre ++ ansMarker ++ (mid1 ++ ansMarker ++ rest)) →
        (∀ s, s <:+ pre → s ≠ [] →
          ¬ ansMarker <+: (s ++ ansMarker ++ (mid1 ++ ansMarker ++ rest))) →
        (∀ s, s <:+ mid1 → s ≠ [] → ¬ ansMarker <+: (s ++ ansMarker ++ rest)) →
        parse_llm_response (pre ++ ansMarker ++ (mid1 ++ ansMarker ++ rest))
          = (stripL mid1, defaultNextActions)) := by
  refine ⟨?_, ?_, ?_⟩
  · intro text h1 h2
    simp [parse_llm_response, containsL_false h1, containsL_false h2]
  · intro pre mid h1 H h2
    have hna : containsL naMarker (pre ++ ansMarker ++ mid) = false := containsL_false h1
    have hans : containsL ansMarker (pre ++ ansMarker ++ mid) = true := by
      rw [containsL_iff]
      exact ⟨pre, mid, rfl⟩
    have hsplit : splitOnL ansMarker (pre ++ ansMarker ++ mid)
        = pre :: splitOnL ansMarker mid :=
      splitOnL_append_first (by decide) H
    have hmid : splitOnL ansMarker mid = [mid] := splitOnL_of_not_infix h2
    simp only [List.append_assoc] at hna hans hsplit
    simp [parse_llm_response, hna, hans, hsplit, hmid]
  · intro pre mid1 rest h1 H H2
    have hna : containsL naMarker (pre ++ ansMarker ++ (mid1 ++ ansMarker ++ rest))
        = false := containsL_false h1
    have hans : containsL ansMarker (pre ++ ansMarker ++ (mid1 ++ ansMarker ++ rest))
        = true := by
      rw [containsL_iff]
      exact ⟨pre, mid1 ++ ansMarker ++ rest, rfl⟩
    have hsplit : splitOnL ansMarker (pre ++ ansMarker ++ (mid1 ++ ansMarker ++ rest))
        = pre :: splitOnL ansMarker (mid1 ++ ansMarker ++ rest) :=
      splitOnL_append_first (by decide) H
    have hsplit2 : splitOnL ansMarker (mid1 ++ ansMarker ++ rest)
        = mid1 :: splitOnL ansMarker rest :=
      splitOnL_append_first (by decide) H2
    rw [hsplit2] at hsplit
    simp only [List.append_assoc] at hna hans hsplit
    simp [parse_llm_response, hna, hans, hsplit]

/-- Witness for Claim C4 (amended) at concrete inputs, one per conjunct. -/
theorem C4_parser_no_marker_amended_witness :
    parse_llm_response "no markers here".toList
      = (stripL "no markers here".toList, defaultNextActions)
    ∧ parse_llm_response ("x ".toList ++ ansMarker ++ " y".toList)
      = (stripL " y".toList, defaultNextActions)
    ∧ parse_llm_response ("x ".toList ++ ansMarker
        ++ (" a ".toList ++ ansMarker ++ " b".toList))
      = (stripL " a ".toList, defaultNextActions) :=
  ⟨C4_parser_no_marker_amended.1 "no markers here".toList (by decide) (by decide),
   C4_parser_no_marker_amended.2.1 "x ".toList " y".toList (by decide)
     (startH_check (by decide)) (by decide),
   C4_parser_no_marker_amended.2.2 "x ".toList " a ".toList " b".toList (by decide)
     (startH_check (by decide)) (startH_check (by decide))⟩

/-- Counterexample to Claim C4 as stated: on a text holding two ANSWER:
markers and no NEXT ACTIONS marker, the parser keeps only the segment
between the two occurrences, not the entire text minus a leading marker. -/
theorem C4_parser_no_marker_counterexample :
    ¬ naMarker <:+: "ANSWER: a ANSWER: b".toList
    ∧ (parse_llm_response "ANSWER: a ANSWER: b".toList).1 = ['a']
    ∧ stripL "ANSWER: a ANSWER: b".toList ≠ ['a']
    ∧ stripL " a ANSWER: b".toList ≠ ['a'] := by
  exact ⟨by decide, by decide, by decide, by decide⟩

theorem parse_of_split {text l r l2 : List Char}
    (hcont : containsL naMarker text = true)
    (hsplit : splitOnL naMarker text = [l, r])
    (hanscont : containsL ansMarker l = true)
    (hsplitans : splitOnL ansMarker l = [[], l2]) :
    parse_llm_response text = (stripL l2, extractActions r) := by
  unfold parse_llm_response
  rw [hcont, if_pos rfl]
  dsimp only
  rw [hsplit]
  simp only [List.headD, List.getD_cons_succ, List.getD_cons_zero]
  rw [hanscont, if_pos rfl, hsplitans]
  simp only [List.getD_cons_succ, List.getD_cons_zero]

theorem nlDash_toList : ("\n- ".toList : List Char) = ['\n', '-', ' '] := rfl

theorem nl2_toList : ("\n\n".toList : List Char) = ['\n', '\n'] := rfl

theorem na_not_prefix_cons_ne {c : Char} (hc : c ≠ 'N') (t : List Char) :
    ¬ naMarker <+: (c :: t) := by
  intro h
  rw [show (naMarker : List Char) = 'N' :: "EXT ACTIONS:".toList from rfl] at h
  rcases List.cons_prefix_cons.mp h with ⟨h1, -⟩
  exact hc h1.symm

theorem no_na_start_in_answer_part (A r2 : List Char) (hA : ¬ naMarker <:+: A) :
    ∀ s, s <:+ ("ANSWER: ".toList ++ A ++ "\n\n".toList) → s ≠ [] →
      ¬ naMarker <+: (s ++ r2) := by
  intro s hs hne hp
  rcases suffix_append_split hs with h1 | ⟨t, ht, rfl⟩
  · have hmem : s ∈ ("\n\n".toList : List Char).tails := (List.mem_tails _ _).mpr h1
    have htails : ("\n\n".toList : List Char).tails = [['\n', '\n'], ['\n'], []] := by
      decide
    rw [htails] at hmem
    simp at hmem
    rcases hmem with rfl | rfl | rfl
    · exact na_not_prefix_cons_ne (by decide) _ hp
    · exact na_not_prefix_cons_ne (by decide) _ hp
    · exact hne rfl
  · have hsh : (t ++ "\n\n".toList) ++ r2 = t ++ '\n' :: ('\n' :: r2) := by
      simp [nl2_toList]
    rw [hsh] at hp
    have h2 : naMarker <+: t := pre_of_append_cons hp (by decide)
    have h3 : naMarker <:+: ("ANSWER: ".toList ++ A) :=
      List.infix_iff_prefix_suffix.mpr ⟨t, h2, ht⟩
    exact not_infix_append_of hA (by decide) (tails_check (by decide)) h3

theorem no_na_in_actions_part {x y : List Char}
    (hx : ¬ naMarker <:+: x) (hy : ¬ naMarker <:+: y) :
    ¬ naMarker <:+: ("\n- ".toList ++ x ++ "\n- ".toList ++ y) := by
  intro h
  have hsh : ("\n- ".toList ++ x ++ "\n- ".toList ++ y : List Char)
      = [] ++ '\n' :: ((['-', ' '] ++ x) ++ '\n' :: (['-', ' '] ++ y)) := by
    simp [nlDash_toList]
  rw [hsh] at h
  rcases infix_split_append_cons h (by decide) with h1 | h1
  · rw [List.infix_nil] at h1
    exact absurd h1 (by decide)
  · rcases infix_split_append_cons h1 (by decide) with h2 | h2
    · exact not_infix_append_of hx (by decide) (tails_check (by decide)) h2
    · exact not_infix_append_of hy (by decide) (tails_check (by decide)) h2

theorem stripL_cons_append_keep {c : Char} (hc : pyIsSpace c = false)
    {m y : List Char} (hys : stripL y = y) (hyne : y ≠ []) :
    stripL ((c :: m) ++ y) = (c :: m) ++ y := by
  unfold stripL
  have h1 : ((c :: m) ++ y).dropWhile pyIsSpace = (c :: m) ++ y := by
    rw [show ((c :: m) ++ y : List Char) = c :: (m ++ y) from rfl]
    simp [List.dropWhile_cons, hc]
  rw [h1]
  have hy2 := (stripL_eq_self_parts hys).2
  have h2 : ((c :: m) ++ y).reverse.dropWhile pyIsSpace = ((c :: m) ++ y).reverse := by
    rw [List.reverse_append, List.dropWhile_append, hy2]
    have hie : y.reverse.isEmpty = false := by
      simp [List.isEmpty_iff, hyne]
    rw [hie]
    simp
  rw [h2, List.reverse_reverse]

theorem lineAction_dash {x : List Char} (hne : x ≠ []) (hstr : stripL x = x) :
    lineAction ('-' :: ' ' :: x) = some x := by
  unfold lineAction
  have hline : stripL ('-' :: ' ' :: x) = '-' :: ' ' :: x := by
    have h := stripL_cons_append_keep (c := '-') (by decide) (m := [' ']) hstr hne
    simpa using h
  dsimp only
  rw [hline]
  have hpre : ((['-'] : List Char).isPrefixOf ('-' :: ' ' :: x)
      || (['•'] : List Char).isPrefixOf ('-' :: ' ' :: x)) = true := by
    simp [List.isPrefixOf_iff_prefix, List.cons_prefix_cons]
  rw [hpre]
  have hdrop : lstripSet ['-', '•'] ('-' :: ' ' :: x) = ' ' :: x := by
    unfold lstripSet
    rw [List.dropWhile_cons, if_pos (by decide), List.dropWhile_cons, if_neg (by decide)]
  simp only [hdrop, if_true]
  rw [stripL_cons_space (by decide), hstr]
  simp [List.isEmpty_iff, hne]

theorem extractActions_round {x y : List Char}
    (hxne : x ≠ []) (hxs : stripL x = x) (hxn : ('\n' : Char) ∉ x)
    (hyne : y ≠ []) (hys : stripL y = y) (hyn : ('\n' : Char) ∉ y) :
    extractActions ("\n- ".toList ++ x ++ "\n- ".toList ++ y) = [x, y] := by
  unfold extractActions
  have hsh : ("\n- ".toList ++ x ++ "\n- ".toList ++ y : List Char)
      = '\n' :: (('-' :: (' ' :: x ++ "\n- ".toList)) ++ y) := by
    simp [nlDash_toList]
  have hL : (('-' :: (' ' :: x ++ "\n- ".toList)) ++ y : List Char)
      = ('-' :: ' ' :: x) ++ ['\n'] ++ ('-' :: ' ' :: y) := by
    simp [nlDash_toList]
  have hstrip : stripL ("\n- ".toList ++ x ++ "\n- ".toList ++ y)
      = ('-' :: ' ' :: x) ++ ['\n'] ++ ('-' :: ' ' :: y) := by
    rw [hsh, stripL_cons_space (by decide),
      stripL_cons_append_keep (by decide) hys hyne, hL]
  rw [hstrip]
  have hH2 : ∀ s, s <:+ ('-' :: ' ' :: x) → s ≠ [] →
      ¬ (['\n'] : List Char) <+: (s ++ ['\n'] ++ ('-' :: ' ' :: y)) := by
    intro s hs hne hp
    obtain ⟨c, t, rfl⟩ : ∃ c t, s = c :: t := by
      cases s with
      | nil => exact absurd rfl hne
      | cons c t => exact ⟨c, t, rfl⟩
    have hc : c = '\n' := (List.cons_prefix_cons.mp hp).1.symm
    subst hc
    have hmem : ('\n' : Char) ∈ ('-' :: ' ' :: x) :=
      List.IsSuffix.mem (List.mem_cons_self '\n' t) hs
    rcases List.mem_cons.mp hmem with h | hmem2
    · exact absurd h (by decide)
    rcases List.mem_cons.mp hmem2 with h | hmem3
    · exact absurd h (by decide)
    exact hxn hmem3
  have hnin2 : ¬ (['\n'] : List Char) <:+: ('-' :: ' ' :: y) := by
    intro h
    have h2 : ('\n' : Char) ∈ ('-' :: ' ' :: y) := List.singleton_sublist.mp h.sublist
    rcases List.mem_cons.mp h2 with hm | hm2
    · exact absurd hm (by decide)
    rcases List.mem_cons.mp hm2 with hm | hm3
    · exact absurd hm (by decide)
    exact hyn hm3
  have hsplitNL : splitOnL ['\n'] (('-' :: ' ' :: x) ++ ['\n'] ++ ('-' :: ' ' :: y))
      = [('-' :: ' ' :: x), ('-' :: ' ' :: y)] := by
    rw [splitOnL_append_first (by decide) hH2, splitOnL_of_not_infix hnin2]
  rw [hsplitNL]
  simp [List.filterMap_cons, lineAction_dash hxne hxs, lineAction_dash hyne hys]

/-- Claim C3 (amended): parsing the documented round-trip layout recovers the
answer (trimmed) and exactly the two actions, provided the answer contains
neither literal marker as a substring and each action is non-empty, already
trimmed, newline-free, and does not contain the NEXT ACTIONS marker. -/
theorem C3_round_trip_amended :
    ∀ (A x y : List Char),
      ¬ ansMarker <:+: A → ¬ naMarker <:+: A →
      x ≠ [] → stripL x = x → ('\n' : Char) ∉ x → ¬ naMarker <:+: x →
      y ≠ [] → stripL y = y → ('\n' : Char) ∉ y → ¬ naMarker <:+: y →
      parse_llm_response (roundTripText A x y) = (stripL A, [x, y]) := by
  intro A x y hAa hAn hxne hxs hxn hxm hyne hys hyn hym
  have hshape : roundTripText A x y
      = ("ANSWER: ".toList ++ A ++ "\n\n".toList) ++ naMarker
        ++ ("\n- ".toList ++ x ++ "\n- ".toList ++ y) := by
    unfold roundTripText
    rw [show ("\n\nNEXT ACTIONS:\n- ".toList : List Char)
      = "\n\n".toList ++ (naMarker ++ "\n- ".toList) from rfl]
    simp [List.append_assoc]
  have hH : ∀ s, s <:+ ("ANSWER: ".toList ++ A ++ "\n\n".toList) → s ≠ [] →
      ¬ naMarker <+: (s ++ naMarker
        ++ ("\n- ".toList ++ x ++ "\n- ".toList ++ y)) := by
    intro s hs hne hp
    refine no_na_start_in_answer_part A
      (naMarker ++ ("\n- ".toList ++ x ++ "\n- ".toList ++ y)) hAn s hs hne ?_
    simpa [List.append_assoc] using hp
  have hnar : ¬ naMarker <:+: ("\n- ".toList ++ x ++ "\n- ".toList ++ y) :=
    no_na_in_actions_part hxm hym
  have hsplit : splitOnL naMarker (("ANSWER: ".toList ++ A ++ "\n\n".toList)
      ++ naMarker ++ ("\n- ".toList ++ x ++ "\n- ".toList ++ y))
      = [("ANSWER: ".toList ++ A ++ "\n\n".toList),
         ("\n- ".toList ++ x ++ "\n- ".toList ++ y)] := by
    rw [splitOnL_append_first (by decide) hH, splitOnL_of_not_infix hnar]
  have hcont : containsL naMarker (("ANSWER: ".toList ++ A ++ "\n\n".toList)
      ++ naMarker ++ ("\n- ".toList ++ x ++ "\n- ".toList ++ y)) = true := by
    rw [containsL_iff]
    exact ⟨_, _, rfl⟩
  have hansshape : ("ANSWER: ".toList ++ A ++ "\n\n".toList : List Char)
      = [] ++ ansMarker ++ (' ' :: (A ++ "\n\n".toList)) := by
    rw [show ("ANSWER: ".toList : List Char) = ansMarker ++ [' '] from rfl]
    simp [List.append_assoc]
  have hanscont : containsL ansMarker
      ("ANSWER: ".toList ++ A ++ "\n\n".toList) = true := by
    rw [containsL_iff, hansshape]
    exact ⟨[], ' ' :: (A ++ "\n\n".toList), rfl⟩
  have hnoans2 : ¬ ansMarker <:+: (' ' :: (A ++ "\n\n".toList)) := by
    intro h
    have hsh2 : (' ' :: (A ++ "\n\n".toList) : List Char)
        = [] ++ ' ' :: ((A ++ ['\n']) ++ '\n' :: []) := by
      simp [nl2_toList]
    rw [hsh2] at h
    rcases infix_split_append_cons h (by decide) with h1 | h1
    · rw [List.infix_nil] at h1
      exact absurd h1 (by decide)
    · rcases infix_split_append_cons h1 (by decide) with h2 | h2
      · have hsh3 : (A ++ ['\n'] : List Char) = A ++ '\n' :: [] := rfl
        rw [hsh3] at h2
        rcases infix_split_append_cons h2 (by decide) with h3 | h3
        · exact hAa h3
        · rw [List.infix_nil] at h3
          exact absurd h3 (by decide)
      · rw [List.infix_nil] at h2
        exact absurd h2 (by decide)
  have hsplitans : splitOnL ansMarker ("ANSWER: ".toList ++ A ++ "\n\n".toList)
      = [[], ' ' :: (A ++ "\n\n".toList)] := by
    rw [hansshape, splitOnL_append_first (by decide)
      (fun s hs hne => absurd (List.suffix_nil.mp hs) hne),
      splitOnL_of_not_infix hnoans2]
  have hanswer : stripL (' ' :: (A ++ "\n\n".toList)) = stripL A := by
    rw [stripL_cons_space (by decide)]
    rw [show (A ++ "\n\n".toList : List Char) = (A ++ ['\n']) ++ ['\n'] by
      simp [nl2_toList]]
    rw [stripL_append_space (by decide), stripL_append_space (by decide)]
  have hacts := extractActions_round hxne hxs hxn hyne hys hyn
  rw [hshape, parse_of_split hcont hsplit hanscont hsplitans, hanswer, hacts]

/-- Witness for Claim C3 (amended) at concrete strings. -/
theorem C3_round_trip_amended_witness :
    parse_llm_response (roundTripText "Stable.".toList "Check BP".toList
        "Order labs".toList)
      = (stripL "Stable.".toList, ["Check BP".toList, "Order labs".toList]) :=
  C3_round_trip_amended "Stable.".toList "Check BP".toList "Order labs".toList
    (by decide) (by decide) (by decide) (by decide) (by decide) (by decide)
    (by decide) (by decide) (by decide) (by decide)

/-- Counterexample to Claim C3 as stated: with the empty first action the
parser drops the empty bullet line, returning one action instead of the
claimed two-element list. -/
theorem C3_round_trip_counterexample :
    (parse_llm_response (roundTripText ['a'] [] ['b'])).2 = [['b']]
    ∧ [['b']] ≠ ([[], ['b']] : List (List Char)) := by
  exact ⟨by decide, by decide⟩

end P360
